import Mathlib

/-!
Verification of the FlyIn vscode-decorator specification against the
repository `examples/flyin_plugin/flyin_plugin/vscode.py`.

The repository source is a tutorial: it contains the example tasks and
workflows (`train`, `t_ext`, `task_with_max_idle`, `t_hook`, `t_exception`
and their workflows) and invocations of the plugin surface
(`VscodeConfig`, `add_extensions`, `@vscode(max_idle_seconds=...,
pre_execute=..., post_execute=..., run_task_first=...)`), but not the
plugin implementation itself.  The implementation behind that surface is
therefore modelled from the specification's reconstruction (heartbeat
monitor, idle watchdog, hook runner, session supervisor); the workflow
call graph is embedded directly from the source file.

Time is modelled discretely in natural-number seconds.
-/

/-- Modelled from the spec: a heartbeat read performed by the watchdog.
The heartbeat file either holds a record (an optional last-activity
timestamp; `none` means no record has been written yet) or is unreadable
(`WatchdogError` case in the spec's error taxonomy). -/
inductive HbRead where
  | ok (rec : Option Nat)
  | unreadable
deriving DecidableEq, Repr

/-- Modelled from the spec: `HeartbeatRecord`, a single mutable
last-observed-activity timestamp; `none` means no record exists yet. -/
structure HeartbeatRecord where
  timestamp : Option Nat
deriving DecidableEq, Repr

/-- Modelled from the spec: `HeartbeatMonitor.record_activity()` updates
the record's timestamp to the current time. -/
def record_activity (now : Nat) (_r : HeartbeatRecord) : HeartbeatRecord :=
  ⟨some now⟩

/-- Modelled from the spec: `HeartbeatMonitor.time_since_last_activity()`
reads the record and returns the elapsed time; it returns zero if no
record exists yet (a just-started session is treated as active). -/
def time_since_last_activity (now : Nat) (r : HeartbeatRecord) : Nat :=
  match r.timestamp with
  | none => 0
  | some a => now - a

/-- Modelled from the spec: the `IdleWatchdog` state — configured
threshold and poll interval, whether polling has been stopped, and
whether `on_idle` has already been invoked. -/
structure IdleWatchdog where
  threshold : Nat
  poll_interval : Nat
  stopped : Bool
  fired : Bool
deriving DecidableEq, Repr

/-- Modelled from the spec: `IdleWatchdog.start(threshold, poll_interval,
on_idle)`.  If the threshold is the sentinel "never" value (0), the
watchdog performs no polling: it starts already stopped (disabled). -/
def IdleWatchdog.start (threshold poll_interval : Nat) : IdleWatchdog :=
  { threshold := threshold
    poll_interval := poll_interval
    stopped := decide (threshold = 0)
    fired := false }

/-- Modelled from the spec: `IdleWatchdog.stop()` cancels any pending
poll; it is a pure state update and raises no error. -/
def IdleWatchdog.stop (w : IdleWatchdog) : IdleWatchdog :=
  { w with stopped := true }

/-- Modelled from the spec: one poll of the watchdog loop, state part.
A stopped watchdog does not poll.  An unreadable heartbeat is treated as
"activity unknown", conservatively assumed active: the watchdog keeps
polling.  Otherwise, if the time since last activity reaches the
threshold, the watchdog fires and stops polling. -/
def pollStep (hb : Nat → HbRead) (w : IdleWatchdog) (now : Nat) : IdleWatchdog :=
  if w.stopped then w
  else
    match hb now with
    | .unreadable => w
    | .ok rec =>
        if w.threshold ≤ time_since_last_activity now ⟨rec⟩ then
          { w with stopped := true, fired := true }
        else w

/-- Modelled from the spec: whether a poll at time `now` invokes the
`on_idle` callback. -/
def pollFires (hb : Nat → HbRead) (w : IdleWatchdog) (now : Nat) : Bool :=
  if w.stopped then false
  else
    match hb now with
    | .unreadable => false
    | .ok rec => decide (w.threshold ≤ time_since_last_activity now ⟨rec⟩)

/-- Modelled from the spec: whether a poll at time `now` logs the
unreadable-heartbeat condition. -/
def pollLogs (hb : Nat → HbRead) (w : IdleWatchdog) (now : Nat) : Bool :=
  if w.stopped then false
  else
    match hb now with
    | .unreadable => true
    | .ok _ => false

/-- Modelled from the spec: the poll schedule — `n` poll instants spaced
`p` apart starting at `next`. -/
def schedule (p : Nat) : Nat → Nat → List Nat
  | _, 0 => []
  | next, n + 1 => next :: schedule p (next + p) n

/-- Modelled from the spec: the times at which `on_idle` is invoked over
a run of the polling loop. -/
def fireTimes (hb : Nat → HbRead) (w : IdleWatchdog) : List Nat → List Nat
  | [] => []
  | x :: ts =>
      (if pollFires hb w x then [x] else []) ++ fireTimes hb (pollStep hb w x) ts

/-- Modelled from the spec: the times at which the unreadable-heartbeat
condition is logged over a run of the polling loop. -/
def logTimes (hb : Nat → HbRead) (w : IdleWatchdog) : List Nat → List Nat
  | [] => []
  | x :: ts =>
      (if pollLogs hb w x then [x] else []) ++ logTimes hb (pollStep hb w x) ts

/-- Modelled from the spec: the watchdog state after a run of the polling
loop. -/
def runW (hb : Nat → HbRead) (w : IdleWatchdog) : List Nat → IdleWatchdog
  | [] => w
  | x :: ts => runW hb (pollStep hb w x) ts

/-- Modelled from the spec: a full watchdog run — start with threshold
`t` and poll interval `p`, then poll at times `p, 2p, ..., np` against
heartbeat trace `hb`. -/
def watchdogRun (t p : Nat) (hb : Nat → HbRead) (n : Nat) :
    IdleWatchdog × List Nat × List Nat :=
  let w := IdleWatchdog.start t p
  let ts := schedule p p n
  (runW hb w ts, fireTimes hb w ts, logTimes hb w ts)

/-- Modelled from the spec: `HookOutcome` — result of a hook invocation,
success or failure with captured error detail. -/
inductive HookOutcome where
  | success
  | failure (msg : String)
deriving DecidableEq, Repr

/-- Modelled from the spec: a pre/post hook reference — no registered
callable, a callable that succeeds, or a callable that raises with the
given message. -/
inductive Hook where
  | none
  | ok
  | fails (msg : String)
deriving DecidableEq, Repr

/-- Modelled from the spec: `HookRunner` wraps a hook invocation so a
failure is captured as a `HookOutcome`; a hook with no registered
callable is a no-op success. -/
def runHook : Hook → HookOutcome
  | .none => .success
  | .ok => .success
  | .fails e => .failure e

/-- The configuration surface shown in `vscode.py` (the spec's
`SessionConfig`): max idle duration in seconds (0 or absent meaning
"never expire"), ordered extension list, run-task-first flag, and
pre/post hook references.  Field semantics modelled from the spec. -/
structure VscodeConfig where
  max_idle_seconds : Nat
  extensions : List String
  run_task_first : Bool
  pre_execute : Hook
  post_execute : Hook
deriving DecidableEq, Repr

/-- Modelled from the spec: `VscodeConfig.add_extensions`, as used in
`vscode.py` lines 63-67 (`config.add_extensions(COPILOT_EXTENSION)`
after `config = VscodeConfig()`): it appends the given identifier/URL to
the configuration's ordered extension list. -/
def VscodeConfig.add_extensions (c : VscodeConfig) (e : String) : VscodeConfig :=
  { c with extensions := c.extensions ++ [e] }

/-- Modelled from the spec: `SessionState`, the supervisor's state
enum. -/
inductive SessionState where
  | initializing
  | running
  | awaitingIdleCheck
  | terminating
  | terminated
deriving DecidableEq, Repr

/-- Modelled from the spec: per-item result reported by the extension
installer. -/
inductive ExtResult where
  | installed (e : String)
  | failed (e : String)
deriving DecidableEq, Repr

/-- Modelled from the spec: the extension installer's handling of one
item — install succeeds or reports failure, decided by the collaborator
predicate `valid` (e.g. whether the URL resolves). -/
def installExtension (valid : String → Bool) (e : String) : ExtResult :=
  if valid e then .installed e else .failed e

/-- Modelled from the spec: the extension installer processes the
ordered list sequentially, reporting per-item success/failure. -/
def installAll (valid : String → Bool) (es : List String) : List ExtResult :=
  es.map (installExtension valid)

/-- Modelled from the spec: the observable outcome of one session run of
the `SessionSupervisor`: the states visited in order, the final state,
the state right after the task-body phase (`none` when that phase is
never reached), the fatal error surfaced to the caller, the recorded
annotations (swallowed task exceptions and post-hook failures), the
extension installer's report, and the hook outcomes. -/
structure SessionTrace where
  states : List SessionState
  finalState : SessionState
  stateAfterBody : Option SessionState
  fatalError : Option String
  annotations : List String
  extResults : List ExtResult
  preOutcome : HookOutcome
  postOutcome : Option HookOutcome
deriving DecidableEq, Repr

/-- Modelled from the spec: one full `SessionSupervisor` run over a task
body (`Except.error` models a raising body).  Pre-hook failure aborts
session start (fatal, the session never reaches Running).  Otherwise the
extensions are installed (failures non-fatal), the server launches and
the session reaches Running.  With `run_task_first` a raising body is
swallowed and recorded as an annotation and the session remains Running
(failure triage); without it a raising body propagates and the session
transitions toward Terminating.  Teardown runs the post hook; a post-hook
failure is recorded, non-fatal, and the session still reaches
Terminated. -/
def runSession (cfg : VscodeConfig) (valid : String → Bool)
    (body : Except String Unit) : SessionTrace :=
  match runHook cfg.pre_execute with
  | .failure e =>
      { states := [.initializing]
        finalState := .initializing
        stateAfterBody := none
        fatalError := some e
        annotations := []
        extResults := []
        preOutcome := .failure e
        postOutcome := none }
  | .success =>
      let ext := installAll valid cfg.extensions
      let post := runHook cfg.post_execute
      let postAnn : List String :=
        match post with
        | .failure e2 => [e2]
        | .success => []
      if cfg.run_task_first then
        match body with
        | .error e =>
            { states := [.initializing, .running, .awaitingIdleCheck,
                         .terminating, .terminated]
              finalState := .terminated
              stateAfterBody := some .running
              fatalError := none
              annotations := e :: postAnn
              extResults := ext
              preOutcome := .success
              postOutcome := some post }
        | .ok _ =>
            { states := [.initializing, .running, .awaitingIdleCheck,
                         .terminating, .terminated]
              finalState := .terminated
              stateAfterBody := some .running
              fatalError := none
              annotations := postAnn
              extResults := ext
              preOutcome := .success
              postOutcome := some post }
      else
        match body with
        | .error e =>
            { states := [.initializing, .running, .terminating, .terminated]
              finalState := .terminated
              stateAfterBody := some .terminating
              fatalError := some e
              annotations := postAnn
              extResults := ext
              preOutcome := .success
              postOutcome := some post }
        | .ok _ =>
            { states := [.initializing, .running, .awaitingIdleCheck,
                         .terminating, .terminated]
              finalState := .terminated
              stateAfterBody := some .running
              fatalError := none
              annotations := postAnn
              extResults := ext
              preOutcome := .success
              postOutcome := some post }

/-- The tasks defined in `vscode.py`. -/
inductive TaskName where
  | train
  | t_ext
  | task_with_max_idle
  | t_hook
  | t_exception
deriving DecidableEq, Repr

/-- The workflows defined in `vscode.py`. -/
inductive WorkflowName where
  | wf_train
  | wf_ext
  | wf_idle
  | wf_hook
  | wf_exception
deriving DecidableEq, Repr

/-- The call graph of `vscode.py`: each workflow body is a single task
invocation (lines 28-30, 76-78, 94-96, 122-124, 140-142). -/
def workflowCalls : WorkflowName → List TaskName
  | .wf_train => [.train]
  | .wf_ext => [.t_ext]
  | .wf_idle => [.task_with_max_idle]
  | .wf_hook => [.task_with_max_idle]
  | .wf_exception => [.task_with_max_idle]

lemma pollStep_stopped (hb : Nat → HbRead) (w : IdleWatchdog) (x : Nat)
    (h : w.stopped = true) : pollStep hb w x = w := by
  simp [pollStep, h]

lemma fireTimes_stopped (hb : Nat → HbRead) (w : IdleWatchdog)
    (h : w.stopped = true) : ∀ ts, fireTimes hb w ts = [] := by
  intro ts
  induction ts with
  | nil => simp [fireTimes]
  | cons x ts ih =>
      simp [fireTimes, pollFires, h, pollStep_stopped hb w x h, ih]

lemma logTimes_stopped (hb : Nat → HbRead) (w : IdleWatchdog)
    (h : w.stopped = true) : ∀ ts, logTimes hb w ts = [] := by
  intro ts
  induction ts with
  | nil => simp [logTimes]
  | cons x ts ih =>
      simp [logTimes, pollLogs, h, pollStep_stopped hb w x h, ih]

lemma runW_stopped (hb : Nat → HbRead) (w : IdleWatchdog)
    (h : w.stopped = true) : ∀ ts, runW hb w ts = w := by
  intro ts
  induction ts with
  | nil => simp [runW]
  | cons x ts ih =>
      simp [runW, pollStep_stopped hb w x h, ih]

/-- C9: `time_since_last_activity` returns the elapsed time since the
recorded last-activity timestamp, and returns zero whenever no heartbeat
record exists yet, so a just-started session is never seen as idle for
any positive threshold. -/
theorem time_since_last_activity_spec (now a t : Nat) (r : HeartbeatRecord)
    (ht : 0 < t) :
    time_since_last_activity now (record_activity a r) = now - a ∧
    time_since_last_activity now ⟨none⟩ = 0 ∧
    ¬ t ≤ time_since_last_activity now ⟨none⟩ := by
  refine ⟨rfl, rfl, ?_⟩
  simp [time_since_last_activity]
  omega

theorem time_since_last_activity_spec_witness :
    time_since_last_activity 7 (record_activity 3 ⟨none⟩) = 7 - 3 ∧
    time_since_last_activity 7 ⟨none⟩ = 0 ∧
    ¬ 5 ≤ time_since_last_activity 7 ⟨none⟩ :=
  time_since_last_activity_spec 7 3 5 ⟨none⟩ (by decide)

/-- C6: `IdleWatchdog.stop` is idempotent — stopping an already-stopped
watchdog (in particular one that already fired, since firing sets
`stopped`) is a no-op on the state, and `stop` never clears the `fired`
flag or alters the configuration. -/
theorem idle_watchdog_stop_idempotent (w : IdleWatchdog) :
    w.stop.stop = w.stop ∧
    (w.stopped = true → w.stop = w) ∧
    w.stop.fired = w.fired ∧
    w.stop.threshold = w.threshold ∧
    w.stop.poll_interval = w.poll_interval := by
  obtain ⟨t, p, s, f⟩ := w
  refine ⟨rfl, ?_, rfl, rfl, rfl⟩
  intro h
  simp only [IdleWatchdog.stop]
  exact congrArg (fun b => IdleWatchdog.mk t p b f) h.symm

theorem idle_watchdog_stop_idempotent_witness :
    IdleWatchdog.stop ⟨5, 1, true, true⟩ = (⟨5, 1, true, true⟩ : IdleWatchdog) :=
  (idle_watchdog_stop_idempotent ⟨5, 1, true, true⟩).2.1 rfl

/-- C3: with the sentinel "never" threshold (max_idle_seconds = 0 or
absent), the watchdog performs no polling: for every heartbeat trace and
every number of elapsed poll intervals, on_idle is never invoked, nothing
is logged, and the watchdog never fires. -/
theorem idle_watchdog_disabled_never_fires (p n : Nat) (hb : Nat → HbRead) :
    (watchdogRun 0 p hb n).2.1 = [] ∧
    (watchdogRun 0 p hb n).2.2 = [] ∧
    (watchdogRun 0 p hb n).1.fired = false := by
  have hst : (IdleWatchdog.start 0 p).stopped = true := rfl
  simp only [watchdogRun]
  refine ⟨fireTimes_stopped _ _ hst _, logTimes_stopped _ _ hst _, ?_⟩
  rw [runW_stopped _ _ hst]
  rfl

lemma unreadable_run (w : IdleWatchdog) (h : w.stopped = false) :
    ∀ ts, fireTimes (fun _ => HbRead.unreadable) w ts = [] ∧
          logTimes (fun _ => HbRead.unreadable) w ts = ts ∧
          runW (fun _ => HbRead.unreadable) w ts = w := by
  intro ts
  induction ts with
  | nil => simp [fireTimes, logTimes, runW]
  | cons x ts ih =>
      have hs : pollStep (fun _ => HbRead.unreadable) w x = w := by
        simp [pollStep]
      refine ⟨?_, ?_, ?_⟩
      · simp [fireTimes, pollFires, h, hs, ih.1]
      · simp [logTimes, pollLogs, h, hs, ih.2.1]
      · simp [runW, hs, ih.2.2]

/-- C8: if the heartbeat file is unreadable at every poll, the session is
conservatively treated as active: for any positive threshold, on_idle
never fires, the watchdog never stops counting the session as active,
and the unreadable condition is logged at every poll. -/
theorem unreadable_heartbeat_conservative (t p n : Nat) (ht : 0 < t) :
    (watchdogRun t p (fun _ => HbRead.unreadable) n).2.1 = [] ∧
    (watchdogRun t p (fun _ => HbRead.unreadable) n).1.fired = false ∧
    (watchdogRun t p (fun _ => HbRead.unreadable) n).2.2 = schedule p p n := by
  have hst : (IdleWatchdog.start t p).stopped = false := by
    simp [IdleWatchdog.start]
    omega
  simp only [watchdogRun]
  have h := unreadable_run (IdleWatchdog.start t p) hst (schedule p p n)
  refine ⟨h.1, ?_, h.2.1⟩
  rw [h.2.2]
  rfl

theorem unreadable_heartbeat_conservative_witness :
    (watchdogRun 5 1 (fun _ => HbRead.unreadable) 10).2.1 = [] ∧
    (watchdogRun 5 1 (fun _ => HbRead.unreadable) 10).1.fired = false ∧
    (watchdogRun 5 1 (fun _ => HbRead.unreadable) 10).2.2 = schedule 1 1 10 :=
  unreadable_heartbeat_conservative 5 1 10 (by decide)

/-- C5 counterexample: `SessionConfig` is not immutable after creation —
`add_extensions` (as used in `vscode.py` lines 63-67, after
`config = VscodeConfig()`) modifies the config's extension list. -/
theorem vscodeConfig_not_immutable_cex :
    ((⟨0, [], false, Hook.none, Hook.none⟩ : VscodeConfig).add_extensions
        ("copilot")).extensions
      ≠ (⟨0, [], false, Hook.none, Hook.none⟩ : VscodeConfig).extensions := by
  decide

/-- C5 amended: the only post-creation modification of the configuration
is `add_extensions`, which appends the given identifier to the ordered
extension list; every other field (max idle duration, run-task-first
flag, pre/post hook references) is left unchanged. -/
theorem add_extensions_appends_only (c : VscodeConfig) (e : String) :
    (c.add_extensions e).extensions = c.extensions ++ [e] ∧
    (c.add_extensions e).max_idle_seconds = c.max_idle_seconds ∧
    (c.add_extensions e).run_task_first = c.run_task_first ∧
    (c.add_extensions e).pre_execute = c.pre_execute ∧
    (c.add_extensions e).post_execute = c.post_execute :=
  ⟨rfl, rfl, rfl, rfl, rfl⟩

/-- C10: in `vscode.py`, the workflows `wf_hook` and `wf_exception` both
invoke `task_with_max_idle` (not the tasks `t_hook` and `t_exception`
defined immediately above them), and no workflow in the file ever invokes
`t_hook` or `t_exception`. -/
theorem wf_hook_wf_exception_call_task_with_max_idle :
    workflowCalls WorkflowName.wf_hook = [TaskName.task_with_max_idle] ∧
    workflowCalls WorkflowName.wf_exception = [TaskName.task_with_max_idle] ∧
    ∀ w : WorkflowName,
      TaskName.t_hook ∉ workflowCalls w ∧ TaskName.t_exception ∉ workflowCalls w := by
  refine ⟨rfl, rfl, ?_⟩
  intro w
  cases w <;> simp [workflowCalls]

/-- C1: for a raising task body (after a successful pre hook): with
`run_task_first = true` the exception is swallowed — it is recorded as an
annotation, no fatal error reaches the caller, and the session state
after the body phase is Running (not Terminating); with
`run_task_first = false` the exception propagates as the fatal error and
the session transitions toward Terminating. -/
theorem task_exception_triage_mode (cfg : VscodeConfig) (valid : String → Bool)
    (e : String) (hpre : runHook cfg.pre_execute = HookOutcome.success) :
    (cfg.run_task_first = true →
      (runSession cfg valid (Except.error e)).stateAfterBody
          = some SessionState.running ∧
      (runSession cfg valid (Except.error e)).fatalError = none ∧
      e ∈ (runSession cfg valid (Except.error e)).annotations) ∧
    (cfg.run_task_first = false →
      (runSession cfg valid (Except.error e)).stateAfterBody
          = some SessionState.terminating ∧
      (runSession cfg valid (Except.error e)).fatalError = some e ∧
      (runSession cfg valid (Except.error e)).finalState
          = SessionState.terminated) := by
  constructor
  · intro h
    simp [runSession, hpre, h]
  · intro h
    simp [runSession, hpre, h]

theorem task_exception_triage_mode_witness :
    ((runSession ⟨0, [], true, Hook.none, Hook.none⟩ (fun _ => true)
        (Except.error ("boom"))).stateAfterBody = some SessionState.running ∧
     (runSession ⟨0, [], true, Hook.none, Hook.none⟩ (fun _ => true)
        (Except.error ("boom"))).fatalError = none ∧
     ("boom") ∈ (runSession ⟨0, [], true, Hook.none, Hook.none⟩ (fun _ => true)
        (Except.error ("boom"))).annotations) ∧
    ((runSession ⟨0, [], false, Hook.none, Hook.none⟩ (fun _ => true)
        (Except.error ("boom"))).stateAfterBody = some SessionState.terminating ∧
     (runSession ⟨0, [], false, Hook.none, Hook.none⟩ (fun _ => true)
        (Except.error ("boom"))).fatalError = some ("boom") ∧
     (runSession ⟨0, [], false, Hook.none, Hook.none⟩ (fun _ => true)
        (Except.error ("boom"))).finalState = SessionState.terminated) :=
  ⟨(task_exception_triage_mode ⟨0, [], true, Hook.none, Hook.none⟩
      (fun _ => true) ("boom") rfl).1 rfl,
   (task_exception_triage_mode ⟨0, [], false, Hook.none, Hook.none⟩
      (fun _ => true) ("boom") rfl).2 rfl⟩

/-- C4: a pre-execute hook failure is fatal — the session never visits
Running and the failure is surfaced as the fatal error; a post-execute
hook failure is non-fatal — whenever the pre hook succeeds the session
still reaches Terminated, with the post failure merely recorded among the
annotations. -/
theorem hook_failure_fatality (cfg : VscodeConfig) (valid : String → Bool)
    (body : Except String Unit) :
    (∀ e, runHook cfg.pre_execute = HookOutcome.failure e →
      SessionState.running ∉ (runSession cfg valid body).states ∧
      (runSession cfg valid body).finalState ≠ SessionState.running ∧
      (runSession cfg valid body).fatalError = some e) ∧
    (∀ e, runHook cfg.pre_execute = HookOutcome.success →
      runHook cfg.post_execute = HookOutcome.failure e →
      (runSession cfg valid body).finalState = SessionState.terminated ∧
      e ∈ (runSession cfg valid body).annotations) := by
  constructor
  · intro e h
    simp [runSession, h]
  · intro e hpre hpost
    cases hb : cfg.run_task_first <;> cases body <;>
      simp [runSession, hpre, hpost, hb]

theorem hook_failure_fatality_witness :
    (SessionState.running ∉ (runSession ⟨0, [], false, Hook.fails ("pf"), Hook.none⟩
        (fun _ => true) (Except.ok ())).states ∧
     (runSession ⟨0, [], false, Hook.fails ("pf"), Hook.none⟩
        (fun _ => true) (Except.ok ())).finalState ≠ SessionState.running ∧
     (runSession ⟨0, [], false, Hook.fails ("pf"), Hook.none⟩
        (fun _ => true) (Except.ok ())).fatalError = some ("pf")) ∧
    ((runSession ⟨0, [], false, Hook.none, Hook.fails ("qf")⟩
        (fun _ => true) (Except.ok ())).finalState = SessionState.terminated ∧
     ("qf") ∈ (runSession ⟨0, [], false, Hook.none, Hook.fails ("qf")⟩
        (fun _ => true) (Except.ok ())).annotations) :=
  ⟨(hook_failure_fatality ⟨0, [], false, Hook.fails ("pf"), Hook.none⟩
      (fun _ => true) (Except.ok ())).1 ("pf") rfl,
   (hook_failure_fatality ⟨0, [], false, Hook.none, Hook.fails ("qf")⟩
      (fun _ => true) (Except.ok ())).2 ("qf") rfl rfl⟩

/-- C7: whenever the pre hook succeeds, the extension installer processes
the configured list sequentially in order, reporting per-item success or
failure (`installExtension` applied item by item), and installation
failures are non-fatal: the session still reaches Running. -/
theorem extension_install_per_item_nonfatal (cfg : VscodeConfig)
    (valid : String → Bool) (body : Except String Unit)
    (hpre : runHook cfg.pre_execute = HookOutcome.success) :
    (runSession cfg valid body).extResults
        = List.map (installExtension valid) cfg.extensions ∧
    SessionState.running ∈ (runSession cfg valid body).states := by
  cases hb : cfg.run_task_first <;> cases body <;>
    simp [runSession, installAll, hpre, hb]

theorem extension_install_per_item_nonfatal_witness :
    (runSession ⟨0, ["a", "bad", "c"], false, Hook.none, Hook.none⟩
        (fun s => decide (s ≠ "bad")) (Except.ok ())).extResults
      = [ExtResult.installed ("a"), ExtResult.failed ("bad"),
         ExtResult.installed ("c")] ∧
    SessionState.running ∈ (runSession ⟨0, ["a", "bad", "c"], false,
        Hook.none, Hook.none⟩ (fun s => decide (s ≠ "bad"))
        (Except.ok ())).states := by
  have h := extension_install_per_item_nonfatal
    ⟨0, ["a", "bad", "c"], false, Hook.none, Hook.none⟩
    (fun s => decide (s ≠ "bad")) (Except.ok ()) rfl
  refine ⟨?_, h.2⟩
  rw [h.1]
  decide

lemma fires_once_aux (t p a : Nat) (ht : 0 < t) (w : IdleWatchdog)
    (hs : w.stopped = false) (hwt : w.threshold = t) :
    ∀ n next, next < a + t + p → a + t ≤ next + p * n →
      ∃ f, fireTimes (fun _ => HbRead.ok (some a)) w (schedule p next (n + 1)) = [f] ∧
        a + t ≤ f ∧ f < a + t + p ∧
        (runW (fun _ => HbRead.ok (some a)) w (schedule p next (n + 1))).stopped = true ∧
        (runW (fun _ => HbRead.ok (some a)) w (schedule p next (n + 1))).fired = true := by
  intro n
  induction n with
  | zero =>
      intro next h1 h2
      have hnext : a + t ≤ next := by omega
      have hcond : w.threshold ≤ time_since_last_activity next ⟨some a⟩ := by
        rw [hwt]
        simp [time_since_last_activity]
        omega
      have hstep : pollStep (fun _ => HbRead.ok (some a)) w next
          = { w with stopped := true, fired := true } := by
        simp [pollStep, hs, hcond]
      have hfire : pollFires (fun _ => HbRead.ok (some a)) w next = true := by
        simp [pollFires, hs, hcond]
      refine ⟨next, ?_, hnext, h1, ?_, ?_⟩
      · simp [schedule, fireTimes, hfire]
      · simp [schedule, runW, hstep]
      · simp [schedule, runW, hstep]
  | succ n ih =>
      intro next h1 h2
      have hsch : schedule p next (n + 1 + 1)
          = next :: schedule p (next + p) (n + 1) := rfl
      by_cases hc : a + t ≤ next
      · have hcond : w.threshold ≤ time_since_last_activity next ⟨some a⟩ := by
          rw [hwt]
          simp [time_since_last_activity]
          omega
        have hstep : pollStep (fun _ => HbRead.ok (some a)) w next
            = { w with stopped := true, fired := true } := by
          simp [pollStep, hs, hcond]
        have hfire : pollFires (fun _ => HbRead.ok (some a)) w next = true := by
          simp [pollFires, hs, hcond]
        have hw1 : ({ w with stopped := true, fired := true }
            : IdleWatchdog).stopped = true := rfl
        refine ⟨next, ?_, hc, h1, ?_, ?_⟩
        · rw [hsch]
          generalize schedule p (next + p) (n + 1) = ts0
          simp only [fireTimes]
          rw [hstep, fireTimes_stopped (fun _ => HbRead.ok (some a)) _ hw1]
          simp [hfire]
        · rw [hsch]
          generalize schedule p (next + p) (n + 1) = ts0
          simp only [runW]
          rw [hstep, runW_stopped (fun _ => HbRead.ok (some a)) _ hw1]
        · rw [hsch]
          generalize schedule p (next + p) (n + 1) = ts0
          simp only [runW]
          rw [hstep, runW_stopped (fun _ => HbRead.ok (some a)) _ hw1]
      · have hcond : ¬ w.threshold ≤ time_since_last_activity next ⟨some a⟩ := by
          rw [hwt]
          simp [time_since_last_activity]
          omega
        have hstep : pollStep (fun _ => HbRead.ok (some a)) w next = w := by
          simp [pollStep, hs, hcond]
        have hfire : pollFires (fun _ => HbRead.ok (some a)) w next = false := by
          simp [pollFires, hs, hcond]
        have h2x : a + t ≤ next + p + p * n := by
          rw [Nat.mul_succ] at h2
          omega
        obtain ⟨f, hf1, hf2, hf3, hf4, hf5⟩ := ih (next + p) (by omega) h2x
        refine ⟨f, ?_, hf2, hf3, ?_, ?_⟩
        · rw [hsch]
          generalize hts : schedule p (next + p) (n + 1) = ts0 at hf1 ⊢
          simp only [fireTimes]
          rw [hstep, hf1]
          simp [hfire]
        · rw [hsch]
          generalize hts : schedule p (next + p) (n + 1) = ts0 at hf4 ⊢
          simp only [runW]
          rw [hstep]
          exact hf4
        · rw [hsch]
          generalize hts : schedule p (next + p) (n + 1) = ts0 at hf5 ⊢
          simp only [runW]
          rw [hstep]
          exact hf5

/-- C2: for every positive threshold `t` and poll interval `p`, if the
last activity was at time `a` and none is recorded afterwards, then once
enough poll intervals have elapsed the watchdog invokes `on_idle` exactly
once (the fire list is a singleton), at an idle duration of at least `t`
and strictly less than `t` plus one poll interval, and polling stops
after firing. -/
theorem idle_watchdog_fires_once_within_interval (t p a n : Nat)
    (ht : 0 < t) (hp : 0 < p) (hn : a + t ≤ p * n) :
    ∃ f, (watchdogRun t p (fun _ => HbRead.ok (some a)) n).2.1 = [f] ∧
      a + t ≤ f ∧ f < a + t + p ∧
      (watchdogRun t p (fun _ => HbRead.ok (some a)) n).1.stopped = true ∧
      (watchdogRun t p (fun _ => HbRead.ok (some a)) n).1.fired = true := by
  have hst : (IdleWatchdog.start t p).stopped = false := by
    simp [IdleWatchdog.start]
    omega
  cases n with
  | zero =>
      exfalso
      omega
  | succ m =>
      have h2 : a + t ≤ p + p * m := by
        rw [Nat.mul_succ] at hn
        omega
      have h1 : p < a + t + p := by omega
      obtain ⟨f, hf1, hf2, hf3, hf4, hf5⟩ :=
        fires_once_aux t p a ht (IdleWatchdog.start t p) hst rfl m p h1 h2
      refine ⟨f, ?_, hf2, hf3, ?_, ?_⟩
      · simpa [watchdogRun] using hf1
      · simpa [watchdogRun] using hf4
      · simpa [watchdogRun] using hf5

theorem idle_watchdog_fires_once_within_interval_witness :
    ∃ f, (watchdogRun 5 1 (fun _ => HbRead.ok (some 0)) 5).2.1 = [f] ∧
      0 + 5 ≤ f ∧ f < 0 + 5 + 1 ∧
      (watchdogRun 5 1 (fun _ => HbRead.ok (some 0)) 5).1.stopped = true ∧
      (watchdogRun 5 1 (fun _ => HbRead.ok (some 0)) 5).1.fired = true :=
  idle_watchdog_fires_once_within_interval 5 1 0 5 (by decide) (by decide)
    (by decide)
